import Mathlib

/-!
Verification of the InternetNamesMCP RDAP resolution subsystem.

Shallow embedding of the core of `rdap_client.py` (retry loop, per-host
rate limiter state machine, Retry-After parsing) and of
`src/internet_names_mcp/rdap_bootstrap.py` (bootstrap cache refresh).
Network effects, clocks and randomness are passed in explicitly; machine
time values are modelled as rationals.
-/

namespace InternetNamesMCP

/-! ### String helpers

List-based models of the Python string operations used by the sources
(`.lower()`, `.strip()`, `.split(",")`, `int(...)`), kept reducible for
concrete evaluation. -/

/-- Python `str.lower()` (ASCII case folding suffices for the inputs here). -/
def lowerString (s : String) : String := String.mk (s.data.map Char.toLower)

/-- Python whitespace as stripped by `str.strip()` (ASCII subset). -/
def pySpace (c : Char) : Bool :=
  c = ' ' ∨ c = '\t' ∨ c = '\n' ∨ c = '\r' ∨ c = '\x0b' ∨ c = '\x0c'

/-- Python `str.strip()`. -/
def pyStrip (s : String) : String :=
  String.mk (((s.data.dropWhile pySpace).reverse.dropWhile pySpace).reverse)

/-- Python `str.split(",")` on character lists, with accumulator. -/
def splitOnCommaAux : List Char → List Char → List (List Char)
  | [], acc => [acc.reverse]
  | c :: rest, acc =>
    if c = ',' then acc.reverse :: splitOnCommaAux rest []
    else splitOnCommaAux rest (c :: acc)

/-- Python `str.split(",")`. -/
def splitOnComma (s : String) : List String :=
  (splitOnCommaAux s.data []).map String.mk

/-! ### Python `float(str)` model -/

/-- Numeric value of a run of decimal digit characters. -/
def digitsVal (ds : List Char) : ℕ :=
  ds.foldl (fun a c => 10 * a + (c.toNat - 48)) 0

/-- Split a character list into its leading decimal digits and the rest. -/
def splitDigits (cs : List Char) : List Char × List Char :=
  (cs.takeWhile Char.isDigit, cs.dropWhile Char.isDigit)

/-- Parse the optional exponent tail of a Python float literal:
either nothing, or `e`/`E`, an optional sign and at least one digit. -/
def parseExpPart : List Char → Option ℤ
  | [] => some 0
  | c :: rest =>
    if c = 'e' ∨ c = 'E' then
      let (sgn, rest') : ℤ × List Char :=
        match rest with
        | '+' :: r => (1, r)
        | '-' :: r => (-1, r)
        | r => (1, r)
      let (ds, tail) := splitDigits rest'
      if ds ≠ [] ∧ tail = [] then some (sgn * (digitsVal ds : ℤ)) else none
    else none

/-- Exact value of a decimal literal, as a numerator/denominator pair:
sign `sgn`, integer digits `ip`, fraction digits `fp`, exponent `e`. -/
def decimalParts (sgn : ℤ) (ip fp : List Char) (e : ℤ) : ℤ × ℕ :=
  (sgn * ((digitsVal ip * 10 ^ fp.length + digitsVal fp : ℕ) : ℤ) * ((10 ^ e.toNat : ℕ) : ℤ),
   10 ^ fp.length * 10 ^ (-e).toNat)

/-- Model of Python `float(s)` applied to an already stripped string, as an
exact numerator/denominator pair. Covers the finite decimal and scientific
forms (`120`, `-3.5`, `1.e2`, `.5e-1`). `inf`/`nan` (not representable
exactly) and underscore digit separators are outside the model; no string
relevant to the claims involves them. -/
def pyFloatParts (s : String) : Option (ℤ × ℕ) :=
  let (sgn, cs) : ℤ × List Char :=
    match s.data with
    | '+' :: r => (1, r)
    | '-' :: r => (-1, r)
    | r => (1, r)
  let (ip, rest) := splitDigits cs
  match rest with
  | '.' :: rest' =>
    let (fp, rest'') := splitDigits rest'
    if ip = [] ∧ fp = [] then none
    else
      match parseExpPart rest'' with
      | some e => some (decimalParts sgn ip fp e)
      | none => none
  | _ =>
    if ip = [] then none
    else
      match parseExpPart rest with
      | some e => some (decimalParts sgn ip [] e)
      | none => none

/-- Model of Python `float(s)` on a stripped string, as a rational. -/
def pyFloatOfString (s : String) : Option ℚ :=
  (pyFloatParts s).map fun p => Rat.divInt p.1 (p.2 : ℤ)

/-! ### `rdap_client._parse_retry_after` -/

/-- Model of `_parse_retry_after` from `rdap_client.py`.
`parsedate` abstracts `email.utils.parsedate_to_datetime` composed with
`.timestamp()` (the parsed HTTP-date as an epoch timestamp; `none` when the
library raises), and `now` is the value of `time.time()`.  The header is
`none` for a missing header; an empty string is falsy in Python, so it is
rejected by the leading `if not header` test. -/
def parse_retry_after (parsedate : String → Option ℚ) (now : ℚ)
    (header : Option String) : Option ℚ :=
  match header with
  | none => none
  | some h =>
    if h = "" then none
    else
      let h' := pyStrip h
      match pyFloatOfString h' with
      | some q => some q
      | none =>
        match parsedate h' with
        | some ts => some (max 0 (ts - now))
        | none => none

/-! ### Domain results (`rdap_client.DomainStatus`, `DomainResult`) -/

/-- Status categories for domain availability checks. -/
inductive DomainStatus
  | available
  | unavailable
  | error
  | unsupported
deriving DecidableEq

/-- Result of a domain availability check. Fields mirror the Python
dataclass; unset optional fields default to `none`. -/
structure DomainResult where
  domain : String
  status : DomainStatus
  price : Option ℚ := none
  error_type : Option String := none
  error_message : Option String := none
  retry_after : Option ℚ := none
deriving DecidableEq

/-- TLD extraction from `_check_single`:
`domain.rsplit(".", 1)[-1].lower() if "." in domain else ""`. -/
def extractTld (domain : String) : String :=
  if domain.data.contains '.' then
    lowerString (String.mk ((domain.data.reverse.takeWhile (fun c => c ≠ '.')).reverse))
  else ""

/-! ### `AsyncRDAPClient._check_single` and `check_domains`

The network is abstracted as an oracle giving, per attempt index, the
outcome of `self._client.get(url)`; the clock readings used by
`_parse_retry_after` are an explicit function of the attempt index.  The
function also returns the list of observable effects (limiter acquisition,
HTTP request, limiter release, sleeps) in order, so that claims about
"no network call" or "release per acquire" are about the event trace. -/

/-- Outcome of one HTTP GET: a response with a status code and optional
`Retry-After` header, a timeout (`httpx.TimeoutException`), or another
network-level failure (`httpx.HTTPError`) carrying `str(e)`. -/
inductive HttpOutcome
  | response (statusCode : ℕ) (retryAfterHeader : Option String)
  | timeoutExc
  | httpErrorExc (msg : String)
deriving DecidableEq

/-- Observable effects of a domain check, in program order. -/
inductive Event
  | acquire
  | request (url : String)
  | release (rateLimited : Bool) (retryAfter : Option ℚ)
  | sleep (duration : ℚ)
deriving DecidableEq

/-- Environment of a single domain check: the bootstrap lookup
(`rdap_bootstrap.get_rdap_server`), the network oracle (url → attempt
index → outcome), the HTTP-date parser and the wall clock per attempt. -/
structure CheckEnv where
  getServer : String → Option String
  outcomeAt : String → ℕ → HttpOutcome
  parsedate : String → Option ℚ
  timeAt : ℕ → ℚ

/-- Python `str(e)[:100]` message truncation. -/
def truncate100 (s : String) : String := String.mk (s.data.take 100)

/-- Final `DomainResult` built after the retry loop exhausts, from the last
captured error type/message/retry-after (`rdap_client.py`, end of
`_check_single`). -/
def finalErrorResult (domain : String) (lastErrorType : Option String)
    (lastErrorMsg : Option String) (lastRetryAfter : Option ℚ) : DomainResult :=
  let msg :=
    if lastErrorType = some "timeout" then some "Request timed out after retries"
    else if lastErrorType = some "rate_limit" then some "Rate limited, please retry later"
    else lastErrorMsg.map truncate100
  { domain := domain, status := .error, error_type := lastErrorType,
    error_message := msg, retry_after := lastRetryAfter }

/-- The `for attempt in range(self._max_retries)` loop of `_check_single`.
`fuel` counts the remaining iterations (`maxRetries - attempt`); the three
trailing arguments are `last_error_type`, `str(last_error)` and
`last_retry_after`.  Returns the result together with the event trace. -/
def checkLoop (outcomes : ℕ → HttpOutcome) (parsedate : String → Option ℚ)
    (timeAt : ℕ → ℚ) (domain url : String) (maxRetries : ℕ) :
    ℕ → ℕ → Option String → Option String → Option ℚ → DomainResult × List Event
  | 0, _, lastET, lastMsg, lastRA => (finalErrorResult domain lastET lastMsg lastRA, [])
  | fuel + 1, attempt, _lastET, _lastMsg, lastRA =>
    let pre : List Event := [.acquire, .request url]
    match outcomes attempt with
    | .response s hdr =>
      if s = 404 then
        ({ domain := domain, status := .available }, pre ++ [.release false none])
      else if s = 200 then
        ({ domain := domain, status := .unavailable }, pre ++ [.release false none])
      else if s = 429 then
        let ra := parse_retry_after parsedate (timeAt attempt) hdr
        let sleeps : List Event :=
          if attempt < maxRetries - 1 then
            [.sleep (match ra with
              | some r => if r ≠ 0 then r else (1 / 2 : ℚ) * (attempt + 1)
              | none => (1 / 2 : ℚ) * (attempt + 1))]
          else []
        let rest := checkLoop outcomes parsedate timeAt domain url maxRetries
          fuel (attempt + 1) (some "rate_limit") none ra
        (rest.1, pre ++ [.release true ra] ++ sleeps ++ rest.2)
      else
        ({ domain := domain, status := .error, error_type := some "http_error",
           error_message := some ("RDAP status " ++ toString s) },
         pre ++ [.release false none])
    | .timeoutExc =>
      let sleeps : List Event :=
        if attempt < maxRetries - 1 then [.sleep ((1 / 2 : ℚ) * (attempt + 1))] else []
      let rest := checkLoop outcomes parsedate timeAt domain url maxRetries
        fuel (attempt + 1) (some "timeout") none lastRA
      (rest.1, pre ++ [.release false none] ++ sleeps ++ rest.2)
    | .httpErrorExc m =>
      let sleeps : List Event :=
        if attempt < maxRetries - 1 then [.sleep ((1 / 2 : ℚ) * (attempt + 1))] else []
      let rest := checkLoop outcomes parsedate timeAt domain url maxRetries
        fuel (attempt + 1) (some "network") (some m) lastRA
      (rest.1, pre ++ [.release false none] ++ sleeps ++ rest.2)

/-- Model of `AsyncRDAPClient._check_single`: TLD extraction, bootstrap
lookup with the unsupported-TLD short circuit, URL construction, then the
retry loop. -/
def check_single (env : CheckEnv) (maxRetries : ℕ) (domain : String) :
    DomainResult × List Event :=
  let tld := extractTld domain
  match env.getServer tld with
  | none =>
    ({ domain := domain, status := .unsupported, error_type := some "tld_unsupported",
       error_message := some ("TLD ." ++ tld ++ " not in RDAP bootstrap") }, [])
  | some server =>
    if server = "" then
      ({ domain := domain, status := .unsupported, error_type := some "tld_unsupported",
         error_message := some ("TLD ." ++ tld ++ " not in RDAP bootstrap") }, [])
    else
      let server' := if server.data.getLast? = some '/' then server else server ++ "/"
      let url := server' ++ "domain/" ++ domain
      checkLoop (env.outcomeAt url) env.parsedate env.timeAt domain url
        maxRetries maxRetries 0 none none none

/-- Model of `AsyncRDAPClient.check_domains`: all checks launched via
`asyncio.gather`, which returns the per-task results in task order. -/
def check_domains (env : CheckEnv) (maxRetries : ℕ) (domains : List String) :
    List DomainResult :=
  if domains = [] then []
  else domains.map fun d => (check_single env maxRetries d).1

/-! ### `HostRateLimiter`

The limiter's mutable fields become an explicit state; its behaviour under
asyncio's cooperative scheduling becomes a labelled transition system. A
`grant` transition is the atomic completion of `acquire()` (semaphore slot
taken, the waits inside the critical section finished, and
`_last_request_time` updated); a `rel` transition is the synchronous
`release()` call with `now = time.monotonic()` and `r = random.random()`. -/

/-- Constructor arguments of `HostRateLimiter`. -/
structure LimiterConfig where
  max_concurrent : ℕ
  min_delay : ℚ

/-- The mutable state of one `HostRateLimiter`; `inFlight` is the number of
holders of the semaphore (`max_concurrent - semaphore value`). -/
structure LimiterState where
  inFlight : ℕ
  last_request_time : ℚ
  retry_after_until : ℚ
  consecutive_rate_limits : ℕ
deriving DecidableEq

/-- Freshly constructed limiter state (`__post_init__` defaults). -/
def initialLimiterState : LimiterState :=
  { inFlight := 0, last_request_time := 0, retry_after_until := 0,
    consecutive_rate_limits := 0 }

/-- Exponential backoff base from `release`: `min(2 ** n, 32)`. -/
def backoffBase (n : ℕ) : ℚ := min ((2 : ℚ) ^ n) 32

/-- Jitter from `release`: `backoff * 0.25 * (random.random() * 2 - 1)`. -/
def jitterOf (backoff r : ℚ) : ℚ := backoff * (1 / 4) * (r * 2 - 1)

/-- State update of `HostRateLimiter.release(rate_limited, retry_after)` at
monotonic time `now`, with `r` the drawn `random.random()` value. -/
def releaseUpdate (s : LimiterState) (now : ℚ) (rate_limited : Bool)
    (retry_after : Option ℚ) (r : ℚ) : LimiterState :=
  if rate_limited then
    let n := s.consecutive_rate_limits + 1
    match retry_after with
    | some ra =>
      { s with
        consecutive_rate_limits := n
        retry_after_until := now + ra
        inFlight := s.inFlight - 1 }
    | none =>
      let backoff := backoffBase n
      { s with
        consecutive_rate_limits := n
        retry_after_until := now + backoff + jitterOf backoff r
        inFlight := s.inFlight - 1 }
  else
    { s with consecutive_rate_limits := 0, inFlight := s.inFlight - 1 }

/-- Labelled events of one limiter. -/
inductive LimiterEvent
  | grant (t : ℚ)
  | rel (t : ℚ) (rate_limited : Bool) (retry_after : Option ℚ) (r : ℚ)

/-- One transition of the limiter. A `grant` requires a free concurrency
slot, the `retry_after_until` wait and the `min_delay` spacing from the
previous granted start, and records the new start time — the checks and the
update happen under the limiter's single lock. A `rel` requires a slot to
be held and applies `releaseUpdate`; `random.random()` lies in `[0, 1)`. -/
inductive LimiterStep (cfg : LimiterConfig) :
    LimiterState → LimiterEvent → LimiterState → Prop
  | grant {s : LimiterState} {t : ℚ}
      (hslot : s.inFlight < cfg.max_concurrent)
      (hretry : s.retry_after_until ≤ t)
      (hdelay : s.last_request_time + cfg.min_delay ≤ t) :
      LimiterStep cfg s (.grant t)
        { s with inFlight := s.inFlight + 1, last_request_time := t }
  | rel {s : LimiterState} {t r : ℚ} {rl : Bool} {ra : Option ℚ}
      (hpos : 0 < s.inFlight) (hr0 : 0 ≤ r) (hr1 : r < 1) :
      LimiterStep cfg s (.rel t rl ra r) (releaseUpdate s t rl ra r)

/-- A valid interleaving of limiter events from one state to another. -/
inductive ValidTrace (cfg : LimiterConfig) :
    LimiterState → List LimiterEvent → LimiterState → Prop
  | nil (s : LimiterState) : ValidTrace cfg s [] s
  | cons {s₁ s₂ s₃ : LimiterState} {e : LimiterEvent} {es : List LimiterEvent} :
      LimiterStep cfg s₁ e s₂ → ValidTrace cfg s₂ es s₃ →
      ValidTrace cfg s₁ (e :: es) s₃

/-! ### `rdap_bootstrap` cache refresh

The cache file content becomes an explicit optional value (Python's falsy
`None`/missing file on one side, a loaded dict on the other); the single
`httpx.get` call of `refresh_bootstrap` becomes an explicit fetch outcome;
`time.time()` becomes `now`.  Dict insertion order of
`_parse_bootstrap_services` is modelled by an ordered association list with
in-place value replacement. -/

/-- Persisted bootstrap cache content (`rdap_bootstrap.json`). -/
structure BootstrapCache where
  last_modified : String
  etag : String
  expires : ℚ
  services : List (String × List String)
deriving DecidableEq

/-- Parsed JSON body of the IANA bootstrap document: the `services` array,
each entry a list whose first element is the TLD list and second the URL
list. -/
structure BootstrapDoc where
  services : List (List (List String))
deriving DecidableEq

/-- Outcome of `httpx.get(IANA_BOOTSTRAP_URL, ...)`: a network-level error
(`httpx.HTTPError`), or a response with status code, the `Cache-Control`,
`Last-Modified` and `ETag` headers, and a body (`none` models a
`json.JSONDecodeError` from `response.json()`). -/
inductive FetchOutcome
  | netError
  | response (statusCode : ℕ) (cacheControl : Option String)
      (lastModifiedHdr : Option String) (etagHdr : Option String)
      (body : Option BootstrapDoc)
deriving DecidableEq

/-- Python dict insert: replace the value in place if the key is present,
else append. -/
def upsert (m : List (String × List String)) (k : String) (v : List String) :
    List (String × List String) :=
  if m.any (fun p => p.1 = k) then m.map (fun p => if p.1 = k then (k, v) else p)
  else m ++ [(k, v)]

/-- Model of `_parse_bootstrap_services`: entries with fewer than two
elements are skipped; every TLD of an entry maps (lowercased) to the
entry's URL list. -/
def parse_bootstrap_services (entries : List (List (List String))) :
    List (String × List String) :=
  entries.foldl
    (fun services entry =>
      if 2 ≤ entry.length then
        let tlds := entry.headD []
        let urls := (entry.get? 1).getD []
        tlds.foldl (fun svcs tld => upsert svcs (lowerString tld) urls) services
      else services)
    []

/-- Python `int(s)` on a string: optional surrounding whitespace, optional
sign, decimal digits (underscore separators unmodelled). -/
def pyIntOfString (s : String) : Option ℤ :=
  let cs := (pyStrip s).data
  let (sgn, ds) : ℤ × List Char :=
    match cs with
    | '+' :: r => (1, r)
    | '-' :: r => (-1, r)
    | r => (1, r)
  if ds ≠ [] ∧ ds.all Char.isDigit then some (sgn * (digitsVal ds : ℤ)) else none

/-- Whether a stripped, lowercased directive starts with `max-age=`. -/
def isMaxAgeDirective : List Char → Bool
  | 'm' :: 'a' :: 'x' :: '-' :: 'a' :: 'g' :: 'e' :: '=' :: _ => true
  | _ => false

/-- Model of `_parse_max_age`: first `max-age=N` directive of the
`Cache-Control` header whose value parses as an integer. -/
def parse_max_age (cache_control : String) : Option ℤ :=
  (splitOnComma cache_control).foldl
    (fun acc directive =>
      match acc with
      | some v => some v
      | none =>
        let d := lowerString (pyStrip directive)
        if isMaxAgeDirective d.data then pyIntOfString (String.mk (d.data.drop 8))
        else none)
    none

/-- Expiry computation shared by the 304 and 200 branches of
`refresh_bootstrap`: `time.time() + max_age` when `max_age` is truthy
(present, parseable and nonzero), else `time.time() + DEFAULT_CACHE_TTL`
(24 hours). -/
def expiryFrom (cacheControl : Option String) (now : ℚ) : ℚ :=
  match parse_max_age (cacheControl.getD "") with
  | some m => if m ≠ 0 then now + (m : ℚ) else now + 86400
  | none => now + 86400

/-- Python truthiness of the early-return guard in `refresh_bootstrap`:
a cache was loaded and `time.time() < cache.get("expires", 0)`. -/
def cacheStillValid (cache : Option BootstrapCache) (now : ℚ) : Bool :=
  match cache with
  | some c => now < c.expires
  | none => false

/-- Whether `refresh_bootstrap` reaches the `httpx.get` call. -/
def refresh_fetches (force : Bool) (cache : Option BootstrapCache) (now : ℚ) : Bool :=
  force || !cacheStillValid cache now

/-- Model of `rdap_bootstrap.refresh_bootstrap`.  Returns the boolean
result together with the cache content after the call (the value
`_save_cache` persisted, or the untouched previous content). -/
def refresh_bootstrap (force : Bool) (cache : Option BootstrapCache)
    (fetch : FetchOutcome) (now : ℚ) : Bool × Option BootstrapCache :=
  if ¬force ∧ cacheStillValid cache now then (false, cache)
  else
    match fetch with
    | .netError => (false, cache)
    | .response code cc lm et body =>
      if code = 304 then
        match cache with
        | some c => (false, some { c with expires := expiryFrom cc now })
        | none => (false, none)
      else if code = 200 then
        match body with
        | none => (false, cache)
        | some data =>
          let services := parse_bootstrap_services data.services
          if services = [] then (false, cache)
          else
            (true, some { last_modified := (lm.getD ""), etag := (et.getD ""),
                          expires := expiryFrom cc now, services := services })
      else (false, cache)

/-! ### Event counting helpers -/

/-- Number of `acquire` events in a trace. -/
def countAcquires : List Event → ℕ
  | [] => 0
  | .acquire :: rest => countAcquires rest + 1
  | _ :: rest => countAcquires rest

/-- Number of `release` events in a trace. -/
def countReleases : List Event → ℕ
  | [] => 0
  | .release _ _ :: rest => countReleases rest + 1
  | _ :: rest => countReleases rest

/-! ### Concrete fixtures used by the witnesses -/

/-- Environment whose bootstrap lookup knows no TLD at all. -/
def emptyBootstrapEnv : CheckEnv :=
  { getServer := fun _ => none
    outcomeAt := fun _ _ => .response 404 none
    parsedate := fun _ => none
    timeAt := fun _ => 0 }

/-- HTTP-date oracle recognising one fixed date string, for the witness. -/
def oneDateOracle : String → Option ℚ :=
  fun s => if s = "Wed, 21 Oct 2015 07:28:00 GMT" then some 50 else none

/-- A concrete prior cache for the 304 scenarios. -/
def priorCache : BootstrapCache :=
  { last_modified := "Mon, 01 Jan 2024 00:00:00 GMT", etag := "W-abc",
    expires := 0, services := [("com", ["https://rdap.example/"])] }

/-- Service document for the successful-refresh witness. -/
def oneComDoc : BootstrapDoc := { services := [[["com"], ["https://rdap.example/"]]] }

theorem countAcquires_append (l₁ l₂ : List Event) :
    countAcquires (l₁ ++ l₂) = countAcquires l₁ + countAcquires l₂ := by
  induction l₁ with
  | nil => simp [countAcquires]
  | cons e rest ih => cases e <;> simp [countAcquires, ih] ; omega

theorem countReleases_append (l₁ l₂ : List Event) :
    countReleases (l₁ ++ l₂) = countReleases l₁ + countReleases l₂ := by
  induction l₁ with
  | nil => simp [countReleases]
  | cons e rest ih => cases e <;> simp [countReleases, ih] ; omega

/-! ### Lemmas about the retry loop -/

theorem checkLoop_domain (outcomes : ℕ → HttpOutcome) (pd : String → Option ℚ)
    (tA : ℕ → ℚ) (domain url : String) (m : ℕ) :
    ∀ fuel attempt a b c,
      ((checkLoop outcomes pd tA domain url m fuel attempt a b c).1).domain = domain := by
  intro fuel
  induction fuel with
  | zero =>
    intro attempt a b c
    simp [checkLoop, finalErrorResult]
  | succ n ih =>
    intro attempt a b c
    simp only [checkLoop]
    cases hout : outcomes attempt with
    | response s hdr =>
      by_cases h404 : s = 404
      · simp [h404]
      · by_cases h200 : s = 200
        · simp [h404, h200]
        · by_cases h429 : s = 429 <;> simp [h404, h200, h429, ih]
    | timeoutExc => simp [ih]
    | httpErrorExc msg => simp [ih]

theorem check_single_domain (env : CheckEnv) (m : ℕ) (d : String) :
    ((check_single env m d).1).domain = d := by
  simp only [check_single]
  cases h : env.getServer (extractTld d) with
  | none => simp
  | some server =>
    by_cases hs : server = "" <;> simp [hs, checkLoop_domain]

theorem checkLoop_balanced (outcomes : ℕ → HttpOutcome) (pd : String → Option ℚ)
    (tA : ℕ → ℚ) (domain url : String) (m : ℕ) :
    ∀ fuel attempt a b c,
      countAcquires (checkLoop outcomes pd tA domain url m fuel attempt a b c).2 =
        countReleases (checkLoop outcomes pd tA domain url m fuel attempt a b c).2 := by
  intro fuel
  induction fuel with
  | zero =>
    intro attempt a b c
    simp [checkLoop, countAcquires, countReleases]
  | succ n ih =>
    intro attempt a b c
    simp only [checkLoop]
    cases hout : outcomes attempt with
    | response s hdr =>
      by_cases h404 : s = 404
      · simp [h404, countAcquires, countReleases]
      · by_cases h200 : s = 200
        · simp [h404, h200, countAcquires, countReleases]
        · by_cases h429 : s = 429
          · by_cases hlast : attempt < m - 1 <;>
              simp [h404, h200, h429, hlast, countAcquires_append, countReleases_append,
                countAcquires, countReleases, ih]
          · simp [h404, h200, h429, countAcquires, countReleases]
    | timeoutExc =>
      by_cases hlast : attempt < m - 1 <;>
        simp [hlast, countAcquires_append, countReleases_append,
          countAcquires, countReleases, ih]
    | httpErrorExc msg =>
      by_cases hlast : attempt < m - 1 <;>
        simp [hlast, countAcquires_append, countReleases_append,
          countAcquires, countReleases, ih]

/-! ### Claim theorems C1, C2, C3, C6 -/

/-- C1: for every input list of domain names, `check_domains` returns one
`DomainResult` per input in input order — mapping the `domain` field over
the output gives back the input list (hence equal length, no duplicates or
omissions) — and the empty input yields the empty output. -/
theorem check_domains_shape (env : CheckEnv) (m : ℕ) (domains : List String) :
    (check_domains env m domains).map DomainResult.domain = domains ∧
    (check_domains env m domains).length = domains.length ∧
    check_domains env m ([] : List String) = [] := by
  refine ⟨?_, ?_, rfl⟩
  · by_cases h : domains = []
    · simp [h, check_domains]
    · simp only [check_domains, if_neg h, List.map_map]
      calc (domains.map fun d => ((check_single env m d).1).domain)
          = domains.map id := List.map_congr_left fun d _ => check_single_domain env m d
        _ = domains := List.map_id domains
  · by_cases h : domains = [] <;> simp [h, check_domains]

/-- C2: a domain whose TLD has no bootstrap entry yields
`status=Unsupported` with `error_type=tld_unsupported` and an empty event
trace: no limiter acquisition, no HTTP request, no release, no retry. -/
theorem unsupported_tld_no_network (env : CheckEnv) (m : ℕ) (domain : String)
    (h : env.getServer (extractTld domain) = none) :
    check_single env m domain =
      ({ domain := domain, status := .unsupported, error_type := some "tld_unsupported",
         error_message := some ("TLD ." ++ extractTld domain ++ " not in RDAP bootstrap") },
       ([] : List Event)) := by
  simp [check_single, h]

theorem unsupported_tld_no_network_witness :
    check_single emptyBootstrapEnv 3 "example.nonexistenttld999" =
      ({ domain := "example.nonexistenttld999", status := .unsupported,
         error_type := some "tld_unsupported",
         error_message := some "TLD .nonexistenttld999 not in RDAP bootstrap" },
       ([] : List Event)) := by
  have h := unsupported_tld_no_network emptyBootstrapEnv 3 "example.nonexistenttld999" rfl
  rw [h]
  decide

/-- C3: classification of one attempt of the retry loop. A 404 response
returns `Available` immediately with the limiter released not-rate-limited;
a 200 returns `Unavailable` the same way; any status other than 404, 200
and 429 returns `Error` with `error_type=http_error` immediately, the
limiter released not-rate-limited and no further attempt (the returned
value and trace do not depend on the remaining fuel or on later
outcomes). -/
theorem attempt_status_classification (outcomes : ℕ → HttpOutcome)
    (pd : String → Option ℚ) (tA : ℕ → ℚ) (domain url : String)
    (m fuel attempt : ℕ) (a b : Option String) (c : Option ℚ)
    (s : ℕ) (hdr : Option String) (hout : outcomes attempt = .response s hdr) :
    (s = 404 → checkLoop outcomes pd tA domain url m (fuel + 1) attempt a b c =
      ({ domain := domain, status := .available },
       [.acquire, .request url, .release false none])) ∧
    (s = 200 → checkLoop outcomes pd tA domain url m (fuel + 1) attempt a b c =
      ({ domain := domain, status := .unavailable },
       [.acquire, .request url, .release false none])) ∧
    (s ≠ 404 → s ≠ 200 → s ≠ 429 →
      checkLoop outcomes pd tA domain url m (fuel + 1) attempt a b c =
        ({ domain := domain, status := .error, error_type := some "http_error",
           error_message := some ("RDAP status " ++ toString s) },
         [.acquire, .request url, .release false none])) := by
  refine ⟨?_, ?_, ?_⟩
  · intro h404
    subst h404
    simp [checkLoop, hout]
  · intro h200
    subst h200
    simp [checkLoop, hout]
  · intro h404 h200 h429
    simp [checkLoop, hout, h404, h200, h429]

theorem attempt_status_classification_witness :
    (checkLoop (fun _ => .response 404 none) (fun _ => none) (fun _ => 0)
        "a.com" "https://r/domain/a.com" 3 3 0 none none none =
      ({ domain := "a.com", status := .available },
       [.acquire, .request "https://r/domain/a.com", .release false none])) ∧
    (checkLoop (fun _ => .response 200 none) (fun _ => none) (fun _ => 0)
        "a.com" "https://r/domain/a.com" 3 3 0 none none none =
      ({ domain := "a.com", status := .unavailable },
       [.acquire, .request "https://r/domain/a.com", .release false none])) ∧
    (checkLoop (fun _ => .response 500 none) (fun _ => none) (fun _ => 0)
        "a.com" "https://r/domain/a.com" 3 3 0 none none none =
      ({ domain := "a.com", status := .error, error_type := some "http_error",
         error_message := some "RDAP status 500" },
       [.acquire, .request "https://r/domain/a.com", .release false none])) := by
  refine ⟨?_, ?_, ?_⟩
  · exact (attempt_status_classification (fun _ => .response 404 none) (fun _ => none)
      (fun _ => 0) "a.com" "https://r/domain/a.com" 3 2 0 none none none 404 none rfl).1 rfl
  · exact (attempt_status_classification (fun _ => .response 200 none) (fun _ => none)
      (fun _ => 0) "a.com" "https://r/domain/a.com" 3 2 0 none none none 200 none rfl).2.1 rfl
  · exact (attempt_status_classification (fun _ => .response 500 none) (fun _ => none)
      (fun _ => 0) "a.com" "https://r/domain/a.com" 3 2 0 none none none 500 none rfl).2.2
      (by decide) (by decide) (by decide)

/-- C6: on every path through `_check_single` — 404, 200, 429, other HTTP
status, timeout, network error, and loop exhaustion — the event trace holds
exactly one `release` for each `acquire`. -/
theorem release_balances_acquire (env : CheckEnv) (m : ℕ) (domain : String) :
    countAcquires (check_single env m domain).2 =
      countReleases (check_single env m domain).2 := by
  simp only [check_single]
  cases h : env.getServer (extractTld domain) with
  | none => simp [countAcquires, countReleases]
  | some server =>
    by_cases hs : server = ""
    · simp [hs, countAcquires, countReleases]
    · simp only [if_neg hs]
      exact checkLoop_balanced _ _ _ _ _ _ m 0 none none none

/-! ### Claim theorems C10, C5, C7 -/

/-- C10: `_parse_retry_after` maps `"120"` to `120.0`; maps a header whose
stripped value does not parse as a float but does parse as an HTTP-date to
the non-negative number of seconds from `now` until that date (clamped at
0 for past dates); and maps a missing header, the empty string, and a
string neither parser accepts to `none`. -/
theorem parse_retry_after_spec (pd : String → Option ℚ) (now : ℚ) :
    parse_retry_after pd now (some "120") = some 120 ∧
    parse_retry_after pd now none = none ∧
    parse_retry_after pd now (some "") = none ∧
    (∀ (s : String) (ts : ℚ), s ≠ "" → pyFloatOfString (pyStrip s) = none →
      pd (pyStrip s) = some ts →
      parse_retry_after pd now (some s) = some (max 0 (ts - now)) ∧
        0 ≤ max 0 (ts - now)) ∧
    (∀ s : String, s ≠ "" → pyFloatOfString (pyStrip s) = none →
      pd (pyStrip s) = none → parse_retry_after pd now (some s) = none) := by
  refine ⟨?_, rfl, rfl, ?_, ?_⟩
  · have h : pyFloatParts (pyStrip "120") = some (120, 1) := by decide
    simp [parse_retry_after, pyFloatOfString, h]
  · intro s ts hne hfl hpd
    refine ⟨?_, le_max_left 0 (ts - now)⟩
    simp [parse_retry_after, hne, hfl, hpd]
  · intro s hne hfl hpd
    simp [parse_retry_after, hne, hfl, hpd]

theorem parse_retry_after_spec_witness :
    parse_retry_after oneDateOracle 20 (some "120") = some 120 ∧
    parse_retry_after oneDateOracle 20 none = none ∧
    parse_retry_after oneDateOracle 20 (some "") = none ∧
    parse_retry_after oneDateOracle 20 (some "Wed, 21 Oct 2015 07:28:00 GMT") = some 30 ∧
    parse_retry_after oneDateOracle 20 (some "garbage") = none := by
  refine ⟨(parse_retry_after_spec oneDateOracle 20).1,
    (parse_retry_after_spec oneDateOracle 20).2.1,
    (parse_retry_after_spec oneDateOracle 20).2.2.1, ?_, ?_⟩
  · have h := ((parse_retry_after_spec oneDateOracle 20).2.2.2.1
      "Wed, 21 Oct 2015 07:28:00 GMT" 50 (by decide) (by decide) (by decide)).1
    rw [h]
    norm_num
  · exact (parse_retry_after_spec oneDateOracle 20).2.2.2.2 "garbage"
      (by decide) (by decide) (by decide)

/-- C5: the un-jittered backoff base is non-decreasing; for two consecutive
rate-limited releases without a server-supplied wait, the jittered backoff
durations are non-decreasing as long as the later base is still at or below
the 32-second ceiling; and any non-rate-limited release resets
`consecutive_rate_limits` to zero. -/
theorem backoff_monotone_reset :
    (∀ n : ℕ, backoffBase n ≤ backoffBase (n + 1)) ∧
    (∀ (s s' : LimiterState) (t₁ t₂ r₁ r₂ : ℚ), 0 ≤ r₁ → r₁ < 1 → 0 ≤ r₂ → r₂ < 1 →
      (2 : ℚ) ^ (s.consecutive_rate_limits + 2) ≤ 32 →
      s'.consecutive_rate_limits = s.consecutive_rate_limits + 1 →
      (releaseUpdate s t₁ true none r₁).retry_after_until - t₁ ≤
        (releaseUpdate s' t₂ true none r₂).retry_after_until - t₂) ∧
    (∀ (s : LimiterState) (t : ℚ) (ra : Option ℚ) (r : ℚ),
      (releaseUpdate s t false ra r).consecutive_rate_limits = 0) := by
  refine ⟨?_, ?_, ?_⟩
  · intro n
    exact min_le_min (pow_le_pow_right₀ one_le_two (Nat.le_succ n)) le_rfl
  · intro s s' t₁ t₂ r₁ r₂ hr₁0 hr₁1 hr₂0 hr₂1 h32 hcount
    have hle : (2 : ℚ) ^ (s.consecutive_rate_limits + 1) ≤
        (2 : ℚ) ^ (s.consecutive_rate_limits + 2) :=
      pow_le_pow_right₀ one_le_two (by omega)
    have hb1 : backoffBase (s.consecutive_rate_limits + 1) =
        (2 : ℚ) ^ (s.consecutive_rate_limits + 1) :=
      min_eq_left (le_trans hle h32)
    have hb2 : backoffBase (s.consecutive_rate_limits + 2) =
        (2 : ℚ) ^ (s.consecutive_rate_limits + 2) := min_eq_left h32
    have hpow : (2 : ℚ) ^ (s.consecutive_rate_limits + 2) =
        2 * (2 : ℚ) ^ (s.consecutive_rate_limits + 1) := by
      rw [pow_succ]
      ring
    have hpos : (0 : ℚ) < (2 : ℚ) ^ (s.consecutive_rate_limits + 1) :=
      pow_pos (by norm_num) _
    simp only [releaseUpdate, if_pos, jitterOf, hcount]
    rw [hb1, hb2, hpow]
    nlinarith [mul_nonneg hpos.le hr₁0, mul_nonneg hpos.le hr₂0,
      mul_le_mul_of_nonneg_left hr₁1.le hpos.le,
      mul_le_mul_of_nonneg_left hr₂1.le hpos.le]
  · intro s t ra r
    simp [releaseUpdate]

theorem backoff_monotone_reset_witness :
    backoffBase 0 ≤ backoffBase 1 ∧
    (releaseUpdate initialLimiterState 0 true none 0).retry_after_until - 0 ≤
      (releaseUpdate (releaseUpdate initialLimiterState 0 true none 0) 0 true none 0).retry_after_until - 0 ∧
    (releaseUpdate initialLimiterState 0 false none 0).consecutive_rate_limits = 0 := by
  refine ⟨backoff_monotone_reset.1 0, ?_,
    backoff_monotone_reset.2.2 initialLimiterState 0 none 0⟩
  exact backoff_monotone_reset.2.1 initialLimiterState
    (releaseUpdate initialLimiterState 0 true none 0) 0 0 0 0
    le_rfl (by norm_num) le_rfl (by norm_num) (by norm_num [initialLimiterState]) rfl

/-- C7: every failing refresh — a network-level error, a 200 response whose
body fails to parse, a 200 response parsing to zero TLD entries, or any
status other than 200 and 304 — returns `false` and leaves the stored
cache (services, validators, expiry) entirely unchanged. -/
theorem failed_refresh_keeps_cache (force : Bool) (cache : Option BootstrapCache)
    (now : ℚ) (cc lm et : Option String) :
    refresh_bootstrap force cache .netError now = (false, cache) ∧
    refresh_bootstrap force cache (.response 200 cc lm et none) now = (false, cache) ∧
    (∀ doc : BootstrapDoc, parse_bootstrap_services doc.services = [] →
      refresh_bootstrap force cache (.response 200 cc lm et (some doc)) now =
        (false, cache)) ∧
    (∀ (code : ℕ) (body : Option BootstrapDoc), code ≠ 200 → code ≠ 304 →
      refresh_bootstrap force cache (.response code cc lm et body) now =
        (false, cache)) := by
  refine ⟨?_, ?_, ?_, ?_⟩
  · unfold refresh_bootstrap
    split <;> rfl
  · unfold refresh_bootstrap
    split <;> simp
  · intro doc hdoc
    unfold refresh_bootstrap
    split
    · rfl
    · simp [hdoc]
  · intro code body h200 h304
    unfold refresh_bootstrap
    split
    · rfl
    · simp [h200, h304]

theorem failed_refresh_keeps_cache_witness :
    refresh_bootstrap true none .netError 0 = (false, none) ∧
    refresh_bootstrap true none
      (.response 200 none none none (some { services := [] })) 0 = (false, none) ∧
    refresh_bootstrap true none (.response 500 none none none none) 0 = (false, none) := by
  refine ⟨(failed_refresh_keeps_cache true none 0 none none none).1, ?_, ?_⟩
  · exact (failed_refresh_keeps_cache true none 0 none none none).2.2.1
      { services := [] } rfl
  · exact (failed_refresh_keeps_cache true none 0 none none none).2.2.2 500 none
      (by decide) (by decide)

/-! ### Claim theorems C8, C9 -/

/-- C8 counterexample: on a 304 whose `Cache-Control` is `max-age=0`,
`max-age` is present (it parses to `0`), yet the code falls back to the
24-hour default — Python's `if max_age:` treats `0` as absent — so the new
expiry is `now + 86400`, not `now + 0` as the claim's "now plus the
response's max-age" requires. -/
theorem refresh_304_max_age_zero_cex :
    parse_max_age "max-age=0" = some 0 ∧
    (refresh_bootstrap true (some priorCache)
        (.response 304 (some "max-age=0") none none none) 100).2 =
      some { priorCache with expires := (100 : ℚ) + 86400 } ∧
    ((100 : ℚ) + 86400 ≠ 100 + ((0 : ℤ) : ℚ)) := by
  refine ⟨by decide, rfl, ?_⟩
  push_cast
  norm_num

/-- C8 (amended): a refresh that reaches the fetch and receives a 304 with
a prior cache present persists only a new expiry: `services`,
`last_modified` and `etag` are preserved exactly, the call returns `false`,
and the new expiry is `now + max-age` when the response carries a nonzero
parseable `max-age`, and `now + 86400` (the 24-hour default) when `max-age`
is absent, unparseable, or zero. -/
theorem refresh_304_preserves_content (force : Bool) (c : BootstrapCache)
    (cc lmh eth : Option String) (body : Option BootstrapDoc) (now : ℚ)
    (hf : refresh_fetches force (some c) now = true) :
    refresh_bootstrap force (some c) (.response 304 cc lmh eth body) now =
      (false, some { c with expires := expiryFrom cc now }) ∧
    (∀ m : ℤ, parse_max_age (cc.getD "") = some m → m ≠ 0 →
      expiryFrom cc now = now + (m : ℚ)) ∧
    (parse_max_age (cc.getD "") = none → expiryFrom cc now = now + 86400) ∧
    (parse_max_age (cc.getD "") = some 0 → expiryFrom cc now = now + 86400) := by
  have hcond : ¬(¬force = true ∧ cacheStillValid (some c) now = true) := by
    simp only [refresh_fetches, Bool.or_eq_true, Bool.not_eq_true'] at hf
    rcases hf with hf | hf
    · exact fun hc => by simp [hf] at hc
    · exact fun hc => by simp [hf] at hc
  refine ⟨?_, ?_, ?_, ?_⟩
  · unfold refresh_bootstrap
    rw [if_neg hcond]
    rfl
  · intro m hm hm0
    simp [expiryFrom, hm, hm0]
  · intro hm
    simp [expiryFrom, hm]
  · intro hm
    simp [expiryFrom, hm]

theorem refresh_304_preserves_content_witness :
    refresh_bootstrap true (some priorCache)
      (.response 304 (some "max-age=60") none none none) 7 =
      (false, some { priorCache with expires := expiryFrom (some "max-age=60") 7 }) ∧
    expiryFrom (some "max-age=60") 7 = 7 + ((60 : ℤ) : ℚ) := by
  refine ⟨(refresh_304_preserves_content true priorCache (some "max-age=60")
    none none none 7 rfl).1, ?_⟩
  exact (refresh_304_preserves_content true priorCache (some "max-age=60")
    none none none 7 rfl).2.1 60 (by decide) (by decide)

/-- C9: with an unexpired cache present and `force=False`, the refresh
returns `false` with the cache unchanged whatever the network would have
answered (and the fetch guard is off, so no network call happens);
`force=True` always reaches the fetch; and the refresh returns `true`
exactly on a 200 response parsing to at least one entry, in which case the
stored cache is fully replaced by the parsed services, the response's
validators and the new expiry. -/
theorem refresh_skip_and_write (now : ℚ) :
    (∀ (c : BootstrapCache) (fetch : FetchOutcome), now < c.expires →
      refresh_bootstrap false (some c) fetch now = (false, some c) ∧
      refresh_fetches false (some c) now = false) ∧
    (∀ cache : Option BootstrapCache, refresh_fetches true cache now = true) ∧
    (∀ (force : Bool) (cache res : Option BootstrapCache) (fetch : FetchOutcome),
      refresh_bootstrap force cache fetch now = (true, res) →
      ∃ (cc lmh eth : Option String) (doc : BootstrapDoc),
        fetch = .response 200 cc lmh eth (some doc) ∧
        parse_bootstrap_services doc.services ≠ [] ∧
        res = some { last_modified := lmh.getD "", etag := eth.getD "",
                     expires := expiryFrom cc now,
                     services := parse_bootstrap_services doc.services }) := by
  refine ⟨?_, ?_, ?_⟩
  · intro c fetch hnow
    constructor
    · unfold refresh_bootstrap
      rw [if_pos]
      exact ⟨by simp, by simp [cacheStillValid, hnow]⟩
    · simp [refresh_fetches, cacheStillValid, hnow]
  · intro cache
    simp [refresh_fetches]
  · intro force cache res fetch h
    cases fetch with
    | netError =>
      simp only [refresh_bootstrap] at h
      split at h <;> simp at h
    | response code cc lmh eth body =>
      simp only [refresh_bootstrap] at h
      split at h
      · simp at h
      · by_cases h304 : code = 304
        · rw [if_pos h304] at h
          cases cache with
          | none => simp at h
          | some c => simp at h
        · rw [if_neg h304] at h
          by_cases h200 : code = 200
          · rw [if_pos h200] at h
            cases body with
            | none => simp at h
            | some doc =>
              have h' : (if parse_bootstrap_services doc.services = [] then
                    ((false, cache) : Bool × Option BootstrapCache)
                  else (true, some { last_modified := lmh.getD "", etag := eth.getD "",
                                     expires := expiryFrom cc now,
                                     services := parse_bootstrap_services doc.services })) =
                  (true, res) := h
              by_cases hsvc : parse_bootstrap_services doc.services = []
              · rw [if_pos hsvc] at h'
                simp [Prod.ext_iff] at h'
              · rw [if_neg hsvc] at h'
                obtain ⟨-, hres⟩ := Prod.mk.injEq .. ▸ h'
                exact ⟨cc, lmh, eth, doc, by rw [h200], hsvc, hres.symm⟩
          · rw [if_neg h200] at h
            simp at h

theorem refresh_skip_and_write_witness :
    refresh_bootstrap false (some priorCache) .netError (-5) = (false, some priorCache) ∧
    refresh_fetches true none 0 = true ∧
    (∃ (cc lmh eth : Option String) (doc : BootstrapDoc),
      (FetchOutcome.response 200 none none none (some oneComDoc)) =
        .response 200 cc lmh eth (some doc) ∧
      parse_bootstrap_services doc.services ≠ [] ∧
      (some { last_modified := "", etag := "", expires := expiryFrom none 0,
              services := [("com", ["https://rdap.example/"])] } :
          Option BootstrapCache) =
        some { last_modified := lmh.getD "", etag := eth.getD "",
               expires := expiryFrom cc 0,
               services := parse_bootstrap_services doc.services }) := by
  refine ⟨((refresh_skip_and_write (-5)).1 priorCache .netError (by norm_num [priorCache])).1,
    (refresh_skip_and_write 0).2.1 none, ?_⟩
  exact (refresh_skip_and_write 0).2.2 true none _
    (.response 200 none none none (some oneComDoc)) rfl

/-! ### Limiter trace lemmas and claim theorem C4 -/

theorem releaseUpdate_inFlight (s : LimiterState) (now : ℚ) (rl : Bool)
    (ra : Option ℚ) (r : ℚ) : (releaseUpdate s now rl ra r).inFlight = s.inFlight - 1 := by
  cases rl <;> cases ra <;> simp [releaseUpdate]

theorem releaseUpdate_last (s : LimiterState) (now : ℚ) (rl : Bool)
    (ra : Option ℚ) (r : ℚ) :
    (releaseUpdate s now rl ra r).last_request_time = s.last_request_time := by
  cases rl <;> cases ra <;> simp [releaseUpdate]

theorem validTrace_append_split {cfg : LimiterConfig} {s s' : LimiterState}
    {l₁ l₂ : List LimiterEvent} (h : ValidTrace cfg s (l₁ ++ l₂) s') :
    ∃ m, ValidTrace cfg s l₁ m ∧ ValidTrace cfg m l₂ s' := by
  induction l₁ generalizing s with
  | nil => exact ⟨s, .nil s, h⟩
  | cons e rest ih =>
    cases h with
    | cons hstep htail =>
      obtain ⟨m, h₁, h₂⟩ := ih htail
      exact ⟨m, .cons hstep h₁, h₂⟩

theorem validTrace_inFlight_le {cfg : LimiterConfig} {s s' : LimiterState}
    {tr : List LimiterEvent} (h : ValidTrace cfg s tr s')
    (hs : s.inFlight ≤ cfg.max_concurrent) : s'.inFlight ≤ cfg.max_concurrent := by
  induction h with
  | nil => exact hs
  | cons hstep htail ih =>
    apply ih
    cases hstep with
    | grant hslot hretry hdelay => simpa using hslot
    | rel hpos hr0 hr1 =>
      rw [releaseUpdate_inFlight]
      omega

theorem validTrace_last_mono {cfg : LimiterConfig} (hmd : 0 ≤ cfg.min_delay)
    {s s' : LimiterState} {tr : List LimiterEvent} (h : ValidTrace cfg s tr s') :
    s.last_request_time ≤ s'.last_request_time := by
  induction h with
  | nil => exact le_rfl
  | cons hstep htail ih =>
    refine le_trans ?_ ih
    cases hstep with
    | grant hslot hretry hdelay =>
      simp only
      linarith
    | rel hpos hr0 hr1 => rw [releaseUpdate_last]

/-- C4: over every valid interleaving of the limiter from its initial
state, (1) at most `max_concurrent` requests are in flight in every
reachable state; (2) every granted request start happens at a time no
earlier than the `retry_after_until` in force and no earlier than
`min_delay` after the recorded previous start, with a slot free; and
(3) any two grants are separated by at least `min_delay`, the earlier
first. -/
theorem limiter_invariants (cfg : LimiterConfig) (hmd : 0 ≤ cfg.min_delay) :
    (∀ (tr : List LimiterEvent) (s : LimiterState),
      ValidTrace cfg initialLimiterState tr s → s.inFlight ≤ cfg.max_concurrent) ∧
    (∀ (tr₁ : List LimiterEvent) (t : ℚ) (tr₂ : List LimiterEvent) (s : LimiterState),
      ValidTrace cfg initialLimiterState (tr₁ ++ .grant t :: tr₂) s →
      ∃ m, ValidTrace cfg initialLimiterState tr₁ m ∧
        m.inFlight < cfg.max_concurrent ∧ m.retry_after_until ≤ t ∧
        m.last_request_time + cfg.min_delay ≤ t) ∧
    (∀ (tr₁ : List LimiterEvent) (t₁ : ℚ) (tr₂ : List LimiterEvent) (t₂ : ℚ)
      (tr₃ : List LimiterEvent) (s : LimiterState),
      ValidTrace cfg initialLimiterState (tr₁ ++ .grant t₁ :: (tr₂ ++ .grant t₂ :: tr₃)) s →
      t₁ + cfg.min_delay ≤ t₂) := by
  refine ⟨?_, ?_, ?_⟩
  · intro tr s h
    exact validTrace_inFlight_le h (by simp [initialLimiterState])
  · intro tr₁ t tr₂ s h
    obtain ⟨m, h₁, h₂⟩ := validTrace_append_split h
    cases h₂ with
    | cons hstep htail =>
      cases hstep with
      | grant hslot hretry hdelay => exact ⟨m, h₁, hslot, hretry, hdelay⟩
  · intro tr₁ t₁ tr₂ t₂ tr₃ s h
    obtain ⟨m₁, h₁, h₂⟩ := validTrace_append_split h
    cases h₂ with
    | cons hstep₁ htail₁ =>
      cases hstep₁ with
      | grant hslot₁ hretry₁ hdelay₁ =>
        obtain ⟨m₂, h₃, h₄⟩ := validTrace_append_split htail₁
        cases h₄ with
        | cons hstep₂ htail₂ =>
          cases hstep₂ with
          | grant hslot₂ hretry₂ hdelay₂ =>
            have hmono := validTrace_last_mono hmd h₃
            simp only at hmono
            linarith

theorem limiter_invariants_witness :
    ∃ s : LimiterState,
      ValidTrace { max_concurrent := 2, min_delay := 1 / 2 }
        initialLimiterState [.grant 1, .grant 2] s ∧
      s.inFlight ≤ 2 ∧ ((1 : ℚ) + 1 / 2 ≤ 2) := by
  have step₁ : LimiterStep { max_concurrent := 2, min_delay := 1 / 2 }
      initialLimiterState (.grant 1)
      { initialLimiterState with inFlight := initialLimiterState.inFlight + 1,
                                 last_request_time := 1 } :=
    LimiterStep.grant (by norm_num [initialLimiterState])
      (by norm_num [initialLimiterState]) (by norm_num [initialLimiterState])
  have step₂ : LimiterStep { max_concurrent := 2, min_delay := 1 / 2 }
      ({ initialLimiterState with inFlight := initialLimiterState.inFlight + 1,
                                  last_request_time := 1 } : LimiterState) (.grant 2)
      ({ inFlight := initialLimiterState.inFlight + 1 + 1, last_request_time := 2,
         retry_after_until := initialLimiterState.retry_after_until,
         consecutive_rate_limits := initialLimiterState.consecutive_rate_limits } :
        LimiterState) :=
    LimiterStep.grant (by norm_num [initialLimiterState])
      (by norm_num [initialLimiterState]) (by norm_num [initialLimiterState])
  have htr : ValidTrace { max_concurrent := 2, min_delay := 1 / 2 }
      initialLimiterState [.grant 1, .grant 2]
      { inFlight := 2, last_request_time := 2, retry_after_until := 0,
        consecutive_rate_limits := 0 } :=
    .cons step₁ (.cons step₂ (.nil _))
  refine ⟨_, htr, ?_, ?_⟩
  · exact (limiter_invariants { max_concurrent := 2, min_delay := 1 / 2 }
      (by norm_num)).1 _ _ htr
  · exact (limiter_invariants { max_concurrent := 2, min_delay := 1 / 2 }
      (by norm_num)).2.2 [] 1 [] 2 [] _ htr

/-! ### Concrete evaluations of the embedded definitions -/

example : extractTld "example.COM" = "com" := by decide
example : extractTld "nodots" = "" := by decide
example : extractTld "a.b.io" = "io" := by decide
example : pyFloatParts "120" = some (120, 1) := by decide
example : pyFloatParts "garbage" = none := by decide
example : pyFloatParts "12.5" = some (125, 10) := by decide
example : pyFloatParts "" = none := by decide
example : pyStrip " 120 " = "120" := by decide

example : parse_max_age "public, max-age=3600" = some 3600 := by decide
example : parse_max_age "max-age=0" = some 0 := by decide
example : parse_max_age "no-cache" = none := by decide
example : parse_bootstrap_services [[["COM", "net"], ["https://x/"]], [["org"]]] =
    [("com", ["https://x/"]), ("net", ["https://x/"])] := by decide
example : parse_retry_after (fun _ => none) 0 (some "120") = some 120 := by
  have h : pyFloatParts (pyStrip "120") = some (120, 1) := by decide
  simp [parse_retry_after, pyFloatOfString, h]

end InternetNamesMCP
